import Mathlib

/-!
Shallow embedding of the s-ais synchronization pipeline
(src/lib/s-ais.js and the MarineTraffic checkpoint resolver).
-/

namespace SAis

/-- JavaScript values as they occur in the xml2js output and the
placemark value objects: `undefined`, strings, plain objects and arrays. -/
inductive JsVal where
  | undefined
  | str (s : String)
  | obj (fields : List (String × JsVal))
  | arr (elems : List JsVal)

/-- JavaScript truthiness for the values above: `undefined` and the empty
string are falsy, objects and arrays (even empty ones) are truthy. -/
def truthy : JsVal → Bool
  | .undefined => false
  | .str s => !s.isEmpty
  | .obj _ => true
  | .arr _ => true

/-- First-match field lookup in an object field list. -/
def getField : List (String × JsVal) → String → JsVal
  | [], _ => .undefined
  | (k0, v) :: rest, k => if k0 = k then v else getField rest k

/-- JavaScript property access `v[k]`: field lookup on objects, `undefined`
on every other value (the code only reads data properties on non-objects,
which yields `undefined` in JavaScript). -/
def JsVal.get : JsVal → String → JsVal
  | .obj fields, k => getField fields k
  | _, _ => .undefined

/-- A markup (XML/HTML) node: an element with a tag, attributes and
ordered children, or a text node. -/
inductive Xml where
  | elem (tag : String) (attrs : List (String × String)) (children : List Xml)
  | text (s : String)

/-- Character-level lowercase of a string. -/
def strToLower (s : String) : String := String.mk (s.data.map Char.toLower)

/-- Split a string at every occurrence of a separator character; like
the JavaScript `split`, adjacent separators and string ends produce
empty fragments, and the empty string yields one empty fragment. -/
def splitCharAux (sep : Char) : List Char → List Char → List String
  | acc, [] => [String.mk acc.reverse]
  | acc, c :: rest =>
      if c = sep then String.mk acc.reverse :: splitCharAux sep [] rest
      else splitCharAux sep (c :: acc) rest

/-- JavaScript `s.split(sep)` for a one-character separator. -/
def jsSplit (s : String) (sep : Char) : List String :=
  splitCharAux sep [] s.data

/-- Does the second list lead the first one (character prefix test). -/
def leadsWith : List Char → List Char → Bool
  | _, [] => true
  | [], _ :: _ => false
  | c :: cs, p :: ps => c = p && leadsWith cs ps

/-- Does the string start with the given pattern. -/
def strStartsWith (s pat : String) : Bool := leadsWith s.data pat.data

/-- Whitespace trim at both ends of a string. -/
def strTrim (s : String) : String :=
  String.mk (((s.data.dropWhile Char.isWhitespace).reverse.dropWhile Char.isWhitespace).reverse)

/-- Tag-name normalization performed by xml2js `normalizeTags` (lowercase). -/
def normTag (t : String) : String := strToLower t

/-- Concatenated text content of a child list. -/
def childTexts : List Xml → String
  | [] => ""
  | .text s :: rest => s ++ childTexts rest
  | .elem _ _ _ :: rest => childTexts rest

/-- Does the child list contain an element node. -/
def hasElemChild : List Xml → Bool
  | [] => false
  | .text _ :: rest => hasElemChild rest
  | .elem _ _ _ :: rest => true || hasElemChild rest

/-- xml2js `explicitArray: false` accumulation: a repeated key collects its
values into an array, a key seen once holds the value directly. -/
def appendVal : JsVal → JsVal → JsVal
  | .arr vs, v => .arr (vs ++ [v])
  | v0, v => .arr [v0, v]

/-- Insert one converted child under its key, merging repeats into arrays
(first-occurrence field order is preserved). -/
def insertField : List (String × JsVal) → String → JsVal → List (String × JsVal)
  | [], k, v => [(k, v)]
  | (k0, v0) :: rest, k, v =>
      if k0 = k then (k0, appendVal v0 v) :: rest
      else (k0, v0) :: insertField rest k v

mutual

/-- xml2js conversion with the options used by `parseKmlToPlacemarks`
(`mergeAttrs`, `explicitRoot: false`, `explicitArray: false`,
`normalizeTags`, `preserveChildrenOrder`): an element with attributes or
element children becomes an object (attributes merged in, child tag names
lowercased, a lone child stored directly and repeated children as an
array, text content under the `_` key), an element with only text becomes
that text string. -/
def xmlToJs : Xml → JsVal
  | .text s => .str s
  | .elem _ attrs children =>
      if hasElemChild children || !attrs.isEmpty then
        let base := attrs.map (fun kv => (kv.1, JsVal.str kv.2))
        let fs := xmlFields base children
        let txt := childTexts children
        .obj (if txt.isEmpty then fs else fs ++ [("_", .str txt)])
      else
        .str (childTexts children)

/-- Fold the element children into the field list, in document order. -/
def xmlFields : List (String × JsVal) → List Xml → List (String × JsVal)
  | acc, [] => acc
  | acc, .text _ :: rest => xmlFields acc rest
  | acc, .elem t a c :: rest =>
      xmlFields (insertField acc (normTag t) (xmlToJs (.elem t a c))) rest

end

/-- Errors surfaced by the pipeline: `jsError` models a thrown
`new Error(msg)`, `typeError` models an uncontrolled JavaScript
`TypeError` (calling a method on a value that does not have it). -/
inductive JsError where
  | jsError (msg : String)
  | typeError (msg : String)

/-- The error thrown by `getProperty` for a missing (or falsy-valued)
required named property. -/
def propError (name : String) : JsError :=
  .jsError ("Placemark does not have property: " ++ name)

/-- Strict equality `v === name` between a JavaScript value and a string. -/
def jsEqStr (v : JsVal) (name : String) : Bool :=
  match v with
  | .str s => s = name
  | _ => false

/-- A JavaScript `x.toLowerCase()` call: succeeds only on strings; on
`undefined` or any other non-string it raises a `TypeError`. -/
def jsToLowerCase : JsVal → Except JsError String
  | .str s => .ok (strToLower s)
  | .undefined => .error (.typeError "Cannot read properties of undefined (reading toLowerCase)")
  | _ => .error (.typeError "toLowerCase is not a function")

/-- A JavaScript string-method call (`split`, ...) on a value: succeeds
only on strings, raising a `TypeError` otherwise. -/
def asJsStr (v : JsVal) (method : String) : Except JsError String :=
  match v with
  | .str s => .ok s
  | .undefined => .error (.typeError ("Cannot read properties of undefined (reading " ++ method ++ ")"))
  | _ => .error (.typeError (method ++ " is not a function"))

/-- The required named properties, in the order `placemarkXmlToVo`
extracts them. -/
def requiredProps : List String :=
  ["Id", "IMEI", "Time UTC", "Time", "Latitude", "Longitude",
   "Elevation", "Velocity", "Course", "Valid GPS Fix"]

/-- Helper `getProperty(placemark, name)` from `placemarkXmlToVo`: filters
`placemark.extendeddata.data` by `name` and pops the last match; if no
match remains, or the match has a falsy `value`, it throws the named
property error. Calling `.filter` on a non-array raises a `TypeError`. -/
def getProperty (placemark : JsVal) (name : String) : Except JsError JsVal :=
  match (placemark.get "extendeddata").get "data" with
  | .arr ds =>
      match (ds.filter (fun o => jsEqStr (o.get "name") name)).getLast? with
      | none => .error (propError name)
      | some d => if truthy (d.get "value") then .ok (d.get "value")
                  else .error (propError name)
  | .undefined => .error (.typeError "Cannot read properties of undefined (reading filter)")
  | _ => .error (.typeError "filter is not a function")

/-- The `nonExtendedData` filter predicate: keeps placemarks whose
`extendeddata` property is truthy. -/
def nonExtendedData (placemark : JsVal) : Bool :=
  truthy (placemark.get "extendeddata")

/-- Conversion `placemarkXmlToVo`: builds the position value object from a placemark
node, extracting every required named property in source order,
lowercasing `Valid GPS Fix`, and finally reading
`placemark.visibility.toLowerCase()` (a `TypeError` when `visibility` is
absent). -/
def placemarkXmlToVo (placemark : JsVal) : Except JsError JsVal := do
  let id ← getProperty placemark "Id"
  let imei ← getProperty placemark "IMEI"
  let timeUTC ← getProperty placemark "Time UTC"
  let time ← getProperty placemark "Time"
  let latitude ← getProperty placemark "Latitude"
  let longitude ← getProperty placemark "Longitude"
  let elevation ← getProperty placemark "Elevation"
  let velocity ← getProperty placemark "Velocity"
  let course ← getProperty placemark "Course"
  let validGpsFixRaw ← getProperty placemark "Valid GPS Fix"
  let validGpsFix ← jsToLowerCase validGpsFixRaw
  let visibility ← jsToLowerCase (placemark.get "visibility")
  pure (.obj
    [("id", id), ("imei", imei), ("timeUTC", timeUTC), ("time", time),
     ("latitude", latitude), ("longitude", longitude),
     ("elevation", elevation), ("velocity", velocity), ("course", course),
     ("validGpsFix", .str validGpsFix), ("visibility", .str visibility)])

/-- JavaScript `Array.prototype.map` with a callback that can throw: the
first thrown error aborts the whole traversal, so no partial output ever
escapes. -/
def jsMapM (f : JsVal → Except JsError JsVal) : List JsVal → Except JsError (List JsVal)
  | [] => .ok []
  | p :: rest => do
      let v ← f p
      let vs ← jsMapM f rest
      pure (v :: vs)

/-- The `.filter(nonExtendedData).map(placemarkXmlToVo)` tail of
`parseKmlToPlacemarks`, applied to `blob.document.folder.placemark`:
on an array it filters and converts; on any truthy non-array value the
`.filter` call raises a `TypeError`. -/
def filterMapPlacemarks (pv : JsVal) : Except JsError (List JsVal) :=
  match pv with
  | .arr ps => jsMapM placemarkXmlToVo (ps.filter nonExtendedData)
  | _ => .error (.typeError "placemark.filter is not a function")

/-- The structural-path value `blob.document.folder.placemark`. -/
def placemarkVal (blob : JsVal) : JsVal :=
  ((blob.get "document").get "folder").get "placemark"

/-- The guarded ternary of `parseKmlToPlacemarks` applied to the parsed
blob: if any segment of `blob && blob.document && blob.document.folder &&
blob.document.folder.placemark` is falsy the result is the empty array,
otherwise the filter/map tail runs. -/
def extractPlacemarks (blob : JsVal) : Except JsError (List JsVal) :=
  if truthy blob && truthy (blob.get "document") &&
     truthy ((blob.get "document").get "folder") && truthy (placemarkVal blob) then
    filterMapPlacemarks (placemarkVal blob)
  else
    .ok []

/-- Function `parseKmlToPlacemarks`: xml2js parse of the KML document followed by
the guarded extraction (the raw-markup tokenization performed inside the
xml2js library is represented by the `Xml` tree input). -/
def parseKmlToPlacemarks (kml : Xml) : Except JsError (List JsVal) :=
  extractPlacemarks (xmlToJs kml)

/-- JavaScript `Date` values as the resolver produces them: either the
constructor call `new Date(year, monthIndex, day)` (local time), or a
date parsed from a string, kept symbolically. -/
inductive JsDate where
  | localYMD (year monthIndex day : Int)
  | fromString (s : String)

/-- The calendar year of a date, when it is known syntactically. -/
def jsDateYear : JsDate → Option Int
  | .localYMD y _ _ => some y
  | .fromString _ => none

/-- A transport-level failure of the outbound HTTP call. -/
inductive TransportError where
  | failure (msg : String)

/-- The value the `request-promise-native` call resolves with, as the
resolver consumes it: an optional `statusCode` property (absent when the
library resolves with a plain body string) and the page markup that
cheerio loads. -/
structure HttpResponse where
  statusCode : Option Nat
  page : Xml

mutual

/-- All elements with (case-normalized) tag `time`, in document order:
the cheerio selection `$(time)` over the loaded page. -/
def timeElems : Xml → List Xml
  | .text _ => []
  | .elem t a cs =>
      (if normTag t = "time" then [Xml.elem t a cs] else []) ++ timeElemsList cs

/-- Document-order concatenation of `timeElems` over a child list. -/
def timeElemsList : List Xml → List Xml
  | [] => []
  | c :: rest => timeElems c ++ timeElemsList rest

end

/-- Attribute lookup on an element (`.attr(name)`), `none` on a missing
attribute or an empty selection. -/
def xmlAttr : Option Xml → String → Option String
  | some (.elem _ attrs _), name =>
      match attrs.filter (fun kv => kv.1 = name) with
      | [] => none
      | kv :: _ => some kv.2
  | _, _ => none

/-- JavaScript template-literal interpolation of a possibly-undefined
string value. -/
def templStr : Option String → String
  | some s => s
  | none => "undefined"

/-- Resolver `getLatestPositionTime` of the MarineTraffic service: on a transport
failure it logs and returns no value; on a response whose `statusCode` is
anything but `404` it returns the fixed sentinel `new Date(2010, 1, 1)`;
only on a `404` response does it load the page and build a date from the
`datetime` attribute of the second `time` element, suffixed with ` UTC`. -/
def getLatestPositionTime (resp : Except TransportError HttpResponse) : Option JsDate :=
  match resp with
  | .error _ => none
  | .ok html =>
      if html.statusCode ≠ some 404 then
        some (.localYMD 2010 1 1)
      else
        let timeUTC := xmlAttr ((timeElems html.page).get? 1) "datetime"
        some (.fromString (templStr timeUTC ++ " UTC"))

/-- The `pad(n, width)` helper of `sendSelfReport` (with the default pad
character): left-pad with zeros up to `width`; longer strings are
returned unchanged. -/
def pad (n : String) (width : Nat) : String :=
  if width ≤ n.length then n
  else String.mk (List.replicate (width - n.length) '0') ++ n

/-- The `kmPerHrToKnots` conversion factor applied by `sendSelfReport`
(JavaScript number arithmetic modelled exactly over the rationals). -/
def kmPerHrToKnots (kmPerHr : ℚ) : ℚ := kmPerHr * (539957 / 1000000)

/-- Is every character of the list a decimal digit. -/
def allDigits (cs : List Char) : Bool := cs.all Char.isDigit

/-- Numeric value of a decimal digit list. -/
def digitsVal (cs : List Char) : ℕ :=
  cs.foldl (fun a c => a * 10 + (c.toNat - 48)) 0

/-- JavaScript string-to-number coercion for plain decimal literals
(`none` models `NaN`): the empty or blank string is `0`, an optional
sign followed by digits with an optional fractional part is the obvious
rational, anything else is `NaN`. -/
def jsStringToNumber (s : String) : Option ℚ :=
  let t := strTrim s
  if t.isEmpty then some 0
  else
    let sgn : ℚ := if strStartsWith t "-" then -1 else 1
    let body := if strStartsWith t "-" || strStartsWith t "+" then String.mk (t.data.drop 1) else t
    match jsSplit body '.' with
    | [ip] =>
        if !ip.isEmpty && allDigits ip.data then some (sgn * digitsVal ip.data) else none
    | [ip, fp] =>
        if (!ip.isEmpty || !fp.isEmpty) && allDigits ip.data && allDigits fp.data then
          some (sgn * ((digitsVal ip.data : ℚ) + (digitsVal fp.data : ℚ) / (10 : ℚ) ^ fp.length))
        else none
    | _ => none

/-- The course formatting of `sendSelfReport`:
`pad(data.course.split(.)[0], 3)` — the part before the first decimal
point, left-padded with zeros to three characters. -/
def courseFormatted (course : String) : String :=
  pad ((jsSplit course '.').headD "") 3

/-- The velocity conversion of `sendSelfReport`:
`kmPerHrToKnots(data.velocity.split( )[0])` — the leading
space-separated token coerced to a number and multiplied by the
km/h-to-knots factor (`none` models `NaN`). -/
def velocityKnots (velocity : String) : Option ℚ :=
  (jsStringToNumber ((jsSplit velocity ' ').headD "")).map kmPerHrToKnots

/-- Modelled library behaviour: the observable effect of
`moment(new Date(timeUTC)).format(YYYY-MM-DD HH:mm:ss)` on ISO-style
inputs — the `T` separator becomes a space and a trailing `Z` is
dropped; the value is passed through otherwise (the `Date`/`moment`
libraries are external collaborators). -/
def formatTimestamp (timeUTC : String) : String :=
  let cs := if timeUTC.data.getLast? = some 'Z' then timeUTC.data.dropLast else timeUTC.data
  String.mk (cs.map (fun c => if c = 'T' then ' ' else c))

mutual

/-- JavaScript string coercion of a value interpolated with `+`. -/
def jsValToString : JsVal → String
  | .undefined => "undefined"
  | .str s => s
  | .obj _ => "[object Object]"
  | .arr vs => jsArrToString vs

/-- JavaScript `Array.prototype.toString`: elements joined by commas. -/
def jsArrToString : List JsVal → String
  | [] => ""
  | [v] => jsValToString v
  | v :: rest => jsValToString v ++ "," ++ jsArrToString rest

end

/-- Decimal rendering of an optional rational for the report body
(`NaN` for the missing value); terminating decimals are printed in
positional notation, approximating JavaScript float printing. -/
def ratToJsString (q : Option ℚ) : String :=
  match q with
  | none => "NaN"
  | some q =>
      let sign := if q < 0 then "-" else ""
      let a := |q|
      if a.den = 1 then sign ++ toString a.num
      else
        match (List.range 21).find? (fun k => ((10 : ℚ) ^ k * a).den = 1) with
        | some k =>
            let n := ((10 : ℚ) ^ k * a).num.toNat
            let s := toString n
            let s := if s.length ≤ k then
                       String.mk (List.replicate (k + 1 - s.length) '0') ++ s
                     else s
            sign ++ String.mk (s.data.take (s.length - k)) ++ "." ++
              String.mk (s.data.drop (s.length - k))
        | none => sign ++ toString a.num ++ "/" ++ toString a.den

/-- The fixed default recipient of the self report. -/
def DEFAULT_REPORT_RECEIVER : String := "report@marinetraffic.com"

/-- The message handed to the email transport. -/
structure Email where
  toAddr : String
  fromAddr : String
  subject : String
  text : String

/-- The environment variables the pipeline reads (`none` models an unset
variable). -/
structure Env where
  mapshareId : Option String
  reportSender : Option String
  reportMMSI : Option String
  reportReceiver : Option String

/-- Truthiness of an environment variable (unset or empty is falsy). -/
def envTruthy : Option String → Bool
  | none => false
  | some s => !s.isEmpty

/-- The external collaborators of a run: the MarineTraffic HTTP response,
the InReach KML feed, and the sendgrid transport. -/
structure Collab where
  marinetrafficResponse : String → Except TransportError HttpResponse
  getMapShareKML : String → Option JsDate → Except JsError Xml
  sendgridSend : Email → Except JsError JsVal

/-- Function `getMMSI`: the configured vessel identifier, fatal when absent. -/
def getMMSI (env : Env) : Except JsError String :=
  if envTruthy env.reportMMSI then .ok (env.reportMMSI.getD "")
  else .error (.jsError "REPORT_MMSI environment variable is missing.")

/-- Function `getVesselKml`: requires `MAPSHARE_ID` and passes the since-bound
`lastEntry` straight to the InReach feed collaborator. -/
def getVesselKml (env : Env) (c : Collab) (lastEntry : Option JsDate) :
    Except JsError Xml :=
  if !envTruthy env.mapshareId then
    .error (.jsError "MAPSHARE_ID environment variable is missing.")
  else c.getMapShareKML (env.mapshareId.getD "") lastEntry

/-- Function `sendSelfReport`: checks the sender and MMSI configuration, formats
velocity, course and timestamp from the placemark value object, builds
the fixed-layout body and hands the email to the transport. -/
def sendSelfReport (env : Env) (c : Collab) (data : JsVal) :
    Except JsError Email := do
  if !envTruthy env.reportSender then
    throw (JsError.jsError "REPORT_SENDER environment variable is missing.")
  if !envTruthy env.reportMMSI then
    throw (JsError.jsError "REPORT_MMSI environment variable is missing.")
  let velocityStr ← asJsStr (data.get "velocity") "split"
  let knots := velocityKnots velocityStr
  let courseStr ← asJsStr (data.get "course") "split"
  let course := courseFormatted courseStr
  let timestamp := formatTimestamp (jsValToString (data.get "timeUTC"))
  let body :=
    "________________\n" ++
    "MMSI=" ++ env.reportMMSI.getD "" ++ "\n" ++
    "LAT=" ++ jsValToString (data.get "latitude") ++ "\n" ++
    "LON=" ++ jsValToString (data.get "longitude") ++ "\n" ++
    "SPEED=" ++ ratToJsString knots ++ "\n" ++
    "COURSE=" ++ course ++ "\n" ++
    "TIMESTAMP=" ++ timestamp ++ "\n" ++
    "________________"
  let email : Email :=
    { toAddr := if envTruthy env.reportReceiver then env.reportReceiver.getD ""
                else DEFAULT_REPORT_RECEIVER,
      fromAddr := env.reportSender.getD "",
      subject := "sAIS self-report",
      text := body }
  match c.sendgridSend email with
  | .error e => throw e
  | .ok _ => pure email

/-- Observable outcome of a successful `synchronize` run: the resolved
checkpoint, the since-bound actually passed to the feed fetch, the
extracted placemark records, and the record (and email) reported, if
any. -/
structure SyncTrace where
  checkpoint : Option JsDate
  fetchedSince : Option JsDate
  placemarks : List JsVal
  reported : Option JsVal
  email : Option Email

/-- Orchestrator `synchronize`: resolves the MMSI, asks the MarineTraffic resolver for
the checkpoint, fetches the KML feed since that (possibly absent)
checkpoint, extracts the placemarks, and if any were found reports the
last one (`placemarks[placemarks.length - 1]`); every thrown error is
rethrown to the caller. -/
def synchronize (env : Env) (c : Collab) : Except JsError SyncTrace := do
  let mmsi ← getMMSI env
  let lastMTUpdate := getLatestPositionTime (c.marinetrafficResponse mmsi)
  let vesselKml ← getVesselKml env c lastMTUpdate
  let placemarks ← parseKmlToPlacemarks vesselKml
  if placemarks.length > 0 then
    let lastPlacemark := placemarks.getD (placemarks.length - 1) .undefined
    let email ← sendSelfReport env c lastPlacemark
    pure { checkpoint := lastMTUpdate, fetchedSince := lastMTUpdate,
           placemarks := placemarks, reported := some lastPlacemark,
           email := some email }
  else
    pure { checkpoint := lastMTUpdate, fetchedSince := lastMTUpdate,
           placemarks := placemarks, reported := none, email := none }

/-- Does the computation succeed. -/
def exceptIsOk {ε α : Type} : Except ε α → Bool
  | .ok _ => true
  | .error _ => false

/-- Is the result the named property-extraction error (as opposed to an
uncontrolled `TypeError` or a success). -/
def isPropertyError {α : Type} : Except JsError α → Bool
  | .error (.jsError m) => strStartsWith m "Placemark does not have property: "
  | _ => false

/-- The element list of an array value (empty on non-arrays). -/
def jsArrElems : JsVal → List JsVal
  | .arr vs => vs
  | _ => []

/-- Is the value a string. -/
def isStrB : JsVal → Bool
  | .str _ => true
  | _ => false

/-- Does the last `Data` entry matching `name` (if any) carry a falsy
`value` — the situations `getProperty` rejects with the named error. -/
def lastMatchValueFalsy (ds : List JsVal) (name : String) : Bool :=
  match (ds.filter (fun o => jsEqStr (o.get "name") name)).getLast? with
  | none => true
  | some d => !truthy (d.get "value")

/-- Structural well-formedness of a qualifying placemark node, as the
extractor dereferences it: the named-property container parsed to an
array whose entries carry string (or falsy) values, and a string
`visibility` child. -/
def wellFormedNode (p : JsVal) : Bool :=
  (match (p.get "extendeddata").get "data" with
   | .arr ds => ds.all (fun d => !truthy (d.get "value") || isStrB (d.get "value"))
   | _ => false) &&
  isStrB (p.get "visibility")

/-- The field list of an object value (empty on non-objects). -/
def jsObjFields : JsVal → List (String × JsVal)
  | .obj fs => fs
  | _ => []

/-- A KML `Data` entry with a `name` attribute and a `value` child. -/
def dataEntryX (name value : String) : Xml :=
  .elem "Data" [("name", name)] [.elem "value" [] [.text value]]

/-- A placemark element from a `visibility` child and `Data` entries. -/
def placemarkX (visibility : String) (entries : List Xml) : Xml :=
  .elem "Placemark" [] [
    .elem "visibility" [] [.text visibility],
    .elem "ExtendedData" [] entries]

/-- A complete set of `Data` entries for a position record. -/
def completeEntries : List Xml :=
  [dataEntryX "Id" "42", dataEntryX "IMEI" "300234010916", dataEntryX "Time UTC" "2024-03-01T10:00:00",
   dataEntryX "Time" "2024-03-01T02:00:00", dataEntryX "Latitude" "47.60", dataEntryX "Longitude" "-122.33",
   dataEntryX "Elevation" "0.00 m from MSL", dataEntryX "Velocity" "10 km/h", dataEntryX "Course" "123.9",
   dataEntryX "Valid GPS Fix" "True"]

/-- A second complete set of `Data` entries, with distinct values. -/
def completeEntries2 : List Xml :=
  [dataEntryX "Id" "43", dataEntryX "IMEI" "300234010916", dataEntryX "Time UTC" "2024-03-01T11:00:00",
   dataEntryX "Time" "2024-03-01T03:00:00", dataEntryX "Latitude" "47.70", dataEntryX "Longitude" "-122.40",
   dataEntryX "Elevation" "1.00 m from MSL", dataEntryX "Velocity" "12 km/h", dataEntryX "Course" "7.5",
   dataEntryX "Valid GPS Fix" "True"]

/-- A complete set of `Data` entries lacking the `IMEI` entry. -/
def entriesNoIMEI : List Xml :=
  [dataEntryX "Id" "44", dataEntryX "Time UTC" "2024-03-01T12:00:00",
   dataEntryX "Time" "2024-03-01T04:00:00", dataEntryX "Latitude" "47.80", dataEntryX "Longitude" "-122.50",
   dataEntryX "Elevation" "2.00 m from MSL", dataEntryX "Velocity" "14 km/h", dataEntryX "Course" "200.2",
   dataEntryX "Valid GPS Fix" "True"]

/-- A complete set of `Data` entries whose `Velocity` entry is present
but carries an empty value. -/
def entriesEmptyVelocity : List Xml :=
  [dataEntryX "Id" "45", dataEntryX "IMEI" "300234010916", dataEntryX "Time UTC" "2024-03-01T13:00:00",
   dataEntryX "Time" "2024-03-01T05:00:00", dataEntryX "Latitude" "47.90", dataEntryX "Longitude" "-122.60",
   dataEntryX "Elevation" "3.00 m from MSL", dataEntryX "Velocity" "", dataEntryX "Course" "10.1",
   dataEntryX "Valid GPS Fix" "True"]

/-- A KML route document wrapping placemark children under
`document → folder`. -/
def kmlDoc (pms : List Xml) : Xml :=
  .elem "kml" [] [.elem "Document" [] [.elem "Folder" [] pms]]

/-- A two-placemark route document with complete records. -/
def kmlTwoGood : Xml :=
  kmlDoc [placemarkX "1" completeEntries, placemarkX "1" completeEntries2]

/-- A two-placemark route document whose second record lacks `IMEI`. -/
def kmlMissing : Xml :=
  kmlDoc [placemarkX "1" completeEntries, placemarkX "0" entriesNoIMEI]

/-- A vessel-detail page with two `time` elements, as the resolver
expects on the not-found path. -/
def pageW : Xml :=
  .elem "html" [] [.elem "body" [] [
    .elem "time" [("datetime", "2024-02-28 10:00")] [],
    .elem "time" [("datetime", "2024-03-01 10:00")] []]]

/-- A fully-configured environment. -/
def envAll : Env :=
  { mapshareId := some "share-1", reportSender := some "sender@example.org",
    reportMMSI := some "123456789", reportReceiver := none }

/-- Collaborators whose MarineTraffic call fails at the transport level
and whose feed is an empty route document. -/
def collabDown : Collab :=
  { marinetrafficResponse := fun _ => .error (.failure "ECONNREFUSED"),
    getMapShareKML := fun _ _ => .ok (kmlDoc []),
    sendgridSend := fun _ => .ok .undefined }

/-! Helper lemmas shared by the claim proofs. -/

theorem exbind_ok {ε α β : Type} (a : α) (f : α → Except ε β) :
    (Except.ok a >>= f) = f a := rfl

theorem exbind_err {ε α β : Type} (e : ε) (f : α → Except ε β) :
    ((Except.error e : Except ε α) >>= f) = Except.error e := rfl

theorem expure_eq {ε α : Type} (a : α) :
    (pure a : Except ε α) = Except.ok a := rfl

theorem exbind_eq_ok {ε α β : Type} {m : Except ε α} {f : α → Except ε β} {b : β}
    (h : (m >>= f) = .ok b) : ∃ a, m = .ok a ∧ f a = .ok b := by
  cases m with
  | ok a => exact ⟨a, rfl, h⟩
  | error e => rw [exbind_err] at h; cases h

theorem exceptIsOk_iff {ε α : Type} {m : Except ε α} :
    exceptIsOk m = true ↔ ∃ a, m = .ok a := by
  cases m with
  | ok a => simp [exceptIsOk]
  | error e => simp [exceptIsOk]

theorem get_undefined (k : String) : JsVal.get .undefined k = .undefined := rfl

theorem truthy_of_get_ne_undef {v : JsVal} {k : String}
    (h : v.get k ≠ .undefined) : truthy v = true := by
  cases v with
  | obj fields => rfl
  | undefined => exact absurd rfl h
  | str s => exact absurd rfl h
  | arr vs => exact absurd rfl h

theorem jsMapM_cons (f : JsVal → Except JsError JsVal) (p : JsVal) (rest : List JsVal) :
    jsMapM f (p :: rest) =
      (f p >>= fun v => jsMapM f rest >>= fun vs => pure (v :: vs)) := rfl

/-- Reduction of `parseKmlToPlacemarks` to the filter/map tail when the
structural path resolves to an array of placemark nodes. -/
theorem parse_reduces_to_mapM {kml : Xml} {ps : List JsVal}
    (hpath : placemarkVal (xmlToJs kml) = .arr ps) :
    parseKmlToPlacemarks kml = jsMapM placemarkXmlToVo (ps.filter nonExtendedData) := by
  have hfo : ((xmlToJs kml).get "document").get "folder" ≠ .undefined := by
    intro hu
    simp only [placemarkVal, hu, get_undefined] at hpath
    cases hpath
  have hdoc : (xmlToJs kml).get "document" ≠ .undefined := by
    intro hu
    simp only [placemarkVal, hu, get_undefined] at hpath
    cases hpath
  have t1 : truthy (xmlToJs kml) = true := truthy_of_get_ne_undef hdoc
  have t2 : truthy ((xmlToJs kml).get "document") = true := truthy_of_get_ne_undef hfo
  have t3 : truthy (((xmlToJs kml).get "document").get "folder") = true := by
    refine truthy_of_get_ne_undef (k := "placemark") ?_
    intro hu
    rw [show (((xmlToJs kml).get "document").get "folder").get "placemark"
          = placemarkVal (xmlToJs kml) from rfl, hpath] at hu
    cases hu
  have t4 : truthy (placemarkVal (xmlToJs kml)) = true := by rw [hpath]; rfl
  have t5 : truthy (JsVal.arr ps) = true := rfl
  simp only [parseKmlToPlacemarks, extractPlacemarks, t1, t2, t3, t4, t5,
    Bool.and_self, Bool.and_true, Bool.true_and, if_true, hpath,
    filterMapPlacemarks]

theorem jsMapM_ok_of_all {f : JsVal → Except JsError JsVal} :
    ∀ {l : List JsVal}, (∀ p ∈ l, ∃ v, f p = .ok v) →
      ∃ out, jsMapM f l = .ok out ∧ out.length = l.length ∧
        ∀ i (hi : i < l.length) (ho : i < out.length),
          f (l.get ⟨i, hi⟩) = .ok (out.get ⟨i, ho⟩) := by
  intro l
  induction l with
  | nil =>
      intro _
      exact ⟨[], rfl, rfl, fun i hi _ => absurd hi (by simp)⟩
  | cons p rest ih =>
      intro h
      obtain ⟨v, hv⟩ := h p (List.mem_cons_self p rest)
      obtain ⟨out, hout, hlen, hidx⟩ := ih (fun q hq => h q (List.mem_cons_of_mem p hq))
      refine ⟨v :: out, ?_, by simpa using hlen, ?_⟩
      · rw [jsMapM_cons, hv, exbind_ok, hout, exbind_ok, expure_eq]
      · intro i hi ho
        cases i with
        | zero => simpa using hv
        | succ j =>
            have hj : j < rest.length := by simpa using hi
            have hj2 : j < out.length := by simpa using ho
            simpa using hidx j hj hj2

theorem jsMapM_named_error {f : JsVal → Except JsError JsVal} :
    ∀ {l : List JsVal},
      (∀ p ∈ l, exceptIsOk (f p) = true ∨
        ∃ n ∈ requiredProps, f p = .error (propError n)) →
      (∃ p ∈ l, exceptIsOk (f p) = false) →
      ∃ n ∈ requiredProps, jsMapM f l = .error (propError n) := by
  intro l
  induction l with
  | nil =>
      rintro _ ⟨p, hp, _⟩
      exact absurd hp (by simp)
  | cons p rest ih =>
      rintro hall ⟨q, hq, hqbad⟩
      rcases hall p (List.mem_cons_self p rest) with hok | ⟨n, hn, herr⟩
      · obtain ⟨v, hv⟩ := exceptIsOk_iff.mp hok
        rcases List.mem_cons.mp hq with rfl | hq2
        · rw [hok] at hqbad; cases hqbad
        · obtain ⟨n, hn, hrest⟩ :=
            ih (fun r hr => hall r (List.mem_cons_of_mem p hr)) ⟨q, hq2, hqbad⟩
          refine ⟨n, hn, ?_⟩
          rw [jsMapM_cons, hv, exbind_ok, hrest, exbind_err]
      · exact ⟨n, hn, by rw [jsMapM_cons, herr, exbind_err]⟩

/-- When the property container parsed to an array, `getProperty` either
succeeds or fails with exactly the named property error. -/
theorem getProperty_cases (p : JsVal) (ds : List JsVal) (n : String)
    (hd : (p.get "extendeddata").get "data" = .arr ds) :
    (∃ v, getProperty p n = .ok v) ∨ getProperty p n = .error (propError n) := by
  simp only [getProperty, hd]
  cases hl : (ds.filter (fun o => jsEqStr (o.get "name") n)).getLast? with
  | none => exact Or.inr rfl
  | some d =>
      cases ht : truthy (d.get "value") with
      | true => exact Or.inl ⟨d.get "value", by simp [ht]⟩
      | false => exact Or.inr (by simp [ht])

/-- A successful `getProperty` on a well-formed container returns a
string value. -/
theorem getProperty_ok_str {p : JsVal} {ds : List JsVal} {n : String} {v : JsVal}
    (hd : (p.get "extendeddata").get "data" = .arr ds)
    (hall : ds.all (fun d => !truthy (d.get "value") || isStrB (d.get "value")) = true)
    (h : getProperty p n = .ok v) : ∃ s, v = .str s := by
  simp only [getProperty, hd] at h
  cases hl : (ds.filter (fun o => jsEqStr (o.get "name") n)).getLast? with
  | none => simp only [hl] at h; cases h
  | some d =>
      simp only [hl] at h
      cases ht : truthy (d.get "value") with
      | false => rw [ht] at h; simp at h
      | true =>
          rw [ht] at h
          simp only [if_true] at h
          have hveq : d.get "value" = v := by simpa using h
          have hmem : d ∈ ds :=
            List.mem_of_mem_filter (List.mem_of_getLast?_eq_some hl)
          have hstr := (List.all_eq_true.mp hall) d hmem
          rw [ht] at hstr
          simp only [Bool.not_true, Bool.false_or] at hstr
          cases hv : d.get "value" with
          | str s => exact ⟨s, by rw [← hveq, hv]⟩
          | undefined => rw [hv] at hstr; cases hstr
          | obj fs => rw [hv] at hstr; cases hstr
          | arr vs => rw [hv] at hstr; cases hstr

/-- A successful conversion implies every required property lookup
succeeded. -/
theorem vo_ok_props {p v : JsVal} (h : placemarkXmlToVo p = .ok v) :
    ∀ n ∈ requiredProps, ∃ w, getProperty p n = .ok w := by
  simp only [placemarkXmlToVo] at h
  obtain ⟨a0, h0, h⟩ := exbind_eq_ok h
  obtain ⟨a1, h1, h⟩ := exbind_eq_ok h
  obtain ⟨a2, h2, h⟩ := exbind_eq_ok h
  obtain ⟨a3, h3, h⟩ := exbind_eq_ok h
  obtain ⟨a4, h4, h⟩ := exbind_eq_ok h
  obtain ⟨a5, h5, h⟩ := exbind_eq_ok h
  obtain ⟨a6, h6, h⟩ := exbind_eq_ok h
  obtain ⟨a7, h7, h⟩ := exbind_eq_ok h
  obtain ⟨a8, h8, h⟩ := exbind_eq_ok h
  obtain ⟨a9, h9, h⟩ := exbind_eq_ok h
  intro n hn
  simp only [requiredProps, List.mem_cons, List.not_mem_nil, or_false] at hn
  rcases hn with rfl | rfl | rfl | rfl | rfl | rfl | rfl | rfl | rfl | rfl
  exacts [⟨a0, h0⟩, ⟨a1, h1⟩, ⟨a2, h2⟩, ⟨a3, h3⟩, ⟨a4, h4⟩,
          ⟨a5, h5⟩, ⟨a6, h6⟩, ⟨a7, h7⟩, ⟨a8, h8⟩, ⟨a9, h9⟩]

/-- Destructuring of `wellFormedNode`. -/
theorem wellFormed_dest {p : JsVal} (h : wellFormedNode p = true) :
    ∃ ds, (p.get "extendeddata").get "data" = .arr ds ∧
      ds.all (fun d => !truthy (d.get "value") || isStrB (d.get "value")) = true ∧
      ∃ s, p.get "visibility" = .str s := by
  simp only [wellFormedNode, Bool.and_eq_true] at h
  obtain ⟨h1, h2⟩ := h
  cases hd : (p.get "extendeddata").get "data" with
  | arr ds =>
      refine ⟨ds, rfl, by rw [hd] at h1; exact h1, ?_⟩
      cases hv : p.get "visibility" with
      | str s => exact ⟨s, rfl⟩
      | undefined => rw [hv] at h2; cases h2
      | obj fs => rw [hv] at h2; cases h2
      | arr vs => rw [hv] at h2; cases h2
  | undefined => rw [hd] at h1; cases h1
  | str s => rw [hd] at h1; cases h1
  | obj fs => rw [hd] at h1; cases h1

/-- On a structurally well-formed node the conversion either succeeds or
fails with the named error of some required property. -/
theorem vo_cases {p : JsVal} (hwf : wellFormedNode p = true) :
    exceptIsOk (placemarkXmlToVo p) = true ∨
      ∃ n ∈ requiredProps, placemarkXmlToVo p = .error (propError n) := by
  obtain ⟨ds, hd, hall, svis, hvis⟩ := wellFormed_dest hwf
  obtain ⟨v0, h0⟩ | h0 := getProperty_cases p ds "Id" hd
  · obtain ⟨v1, h1⟩ | h1 := getProperty_cases p ds "IMEI" hd
    · obtain ⟨v2, h2⟩ | h2 := getProperty_cases p ds "Time UTC" hd
      · obtain ⟨v3, h3⟩ | h3 := getProperty_cases p ds "Time" hd
        · obtain ⟨v4, h4⟩ | h4 := getProperty_cases p ds "Latitude" hd
          · obtain ⟨v5, h5⟩ | h5 := getProperty_cases p ds "Longitude" hd
            · obtain ⟨v6, h6⟩ | h6 := getProperty_cases p ds "Elevation" hd
              · obtain ⟨v7, h7⟩ | h7 := getProperty_cases p ds "Velocity" hd
                · obtain ⟨v8, h8⟩ | h8 := getProperty_cases p ds "Course" hd
                  · obtain ⟨v9, h9⟩ | h9 := getProperty_cases p ds "Valid GPS Fix" hd
                    · obtain ⟨s9, rfl⟩ := getProperty_ok_str hd hall h9
                      refine Or.inl ?_
                      simp [placemarkXmlToVo, h0, h1, h2, h3, h4, h5, h6, h7, h8, h9,
                        hvis, jsToLowerCase, exbind_ok, expure_eq, exceptIsOk]
                    · exact Or.inr ⟨"Valid GPS Fix", by simp [requiredProps],
                        by simp [placemarkXmlToVo, h0, h1, h2, h3, h4, h5, h6, h7, h8, h9,
                          exbind_ok, exbind_err]⟩
                  · exact Or.inr ⟨"Course", by simp [requiredProps],
                      by simp [placemarkXmlToVo, h0, h1, h2, h3, h4, h5, h6, h7, h8,
                        exbind_ok, exbind_err]⟩
                · exact Or.inr ⟨"Velocity", by simp [requiredProps],
                    by simp [placemarkXmlToVo, h0, h1, h2, h3, h4, h5, h6, h7,
                      exbind_ok, exbind_err]⟩
              · exact Or.inr ⟨"Elevation", by simp [requiredProps],
                  by simp [placemarkXmlToVo, h0, h1, h2, h3, h4, h5, h6,
                    exbind_ok, exbind_err]⟩
            · exact Or.inr ⟨"Longitude", by simp [requiredProps],
                by simp [placemarkXmlToVo, h0, h1, h2, h3, h4, h5,
                  exbind_ok, exbind_err]⟩
          · exact Or.inr ⟨"Latitude", by simp [requiredProps],
              by simp [placemarkXmlToVo, h0, h1, h2, h3, h4, exbind_ok, exbind_err]⟩
        · exact Or.inr ⟨"Time", by simp [requiredProps],
            by simp [placemarkXmlToVo, h0, h1, h2, h3, exbind_ok, exbind_err]⟩
      · exact Or.inr ⟨"Time UTC", by simp [requiredProps],
          by simp [placemarkXmlToVo, h0, h1, h2, exbind_ok, exbind_err]⟩
    · exact Or.inr ⟨"IMEI", by simp [requiredProps],
        by simp [placemarkXmlToVo, h0, h1, exbind_ok, exbind_err]⟩
  · exact Or.inr ⟨"Id", by simp [requiredProps],
      by simp [placemarkXmlToVo, h0, exbind_ok, exbind_err]⟩

/-- Indexing at `length - 1` is the last element. -/
theorem getD_eq_getLast (l : List JsVal) (hne : l ≠ []) :
    l.getD (l.length - 1) JsVal.undefined = l.getLast?.getD .undefined := by
  induction l with
  | nil => exact absurd rfl hne
  | cons a l ih =>
      cases l with
      | nil => rfl
      | cons b m =>
          have h2 := ih (by simp)
          simpa [List.getD, List.getLast?_cons_cons] using h2

/-- Shape of a successful `synchronize` run: the checkpoint returned by
the resolver is passed unchanged as the fetch since-bound, and the
reported record is the one at index `length - 1`, when any exists. -/
theorem synchronize_ok_shape {env : Env} {c : Collab} {t : SyncTrace}
    (h : synchronize env c = .ok t) :
    ∃ mmsi, getMMSI env = .ok mmsi ∧
      t.checkpoint = getLatestPositionTime (c.marinetrafficResponse mmsi) ∧
      t.fetchedSince = getLatestPositionTime (c.marinetrafficResponse mmsi) ∧
      (t.placemarks = [] → t.reported = none) ∧
      (t.placemarks ≠ [] →
        t.reported = some (t.placemarks.getD (t.placemarks.length - 1) .undefined)) := by
  simp only [synchronize] at h
  obtain ⟨mmsi, hm, h1⟩ := exbind_eq_ok h
  clear h
  obtain ⟨kmlv, hk, h2⟩ := exbind_eq_ok h1
  clear h1
  obtain ⟨pls, hp, h3⟩ := exbind_eq_ok h2
  clear h2
  refine ⟨mmsi, hm, ?_⟩
  split at h3
  · rename_i hlen
    obtain ⟨em, hs, h4⟩ := exbind_eq_ok h3
    rw [expure_eq] at h4
    injection h4 with h4
    subst h4
    refine ⟨rfl, rfl, ?_, fun _ => rfl⟩
    intro h0
    simp only at h0
    rw [h0] at hlen
    simp at hlen
  · rename_i hlen
    rw [expure_eq] at h3
    injection h3 with h3
    subst h3
    have h0 : pls = [] := by
      cases pls with
      | nil => rfl
      | cons x xs => exact absurd (by simp) hlen
    exact ⟨rfl, rfl, fun _ => rfl, fun hne => absurd h0 hne⟩

/-- Splitting a list that opens with a separator-free run: the run is the
first fragment. -/
theorem splitCharAux_no_sep (sep : Char) (ys : List Char) :
    ∀ (xs acc : List Char), sep ∉ xs →
      splitCharAux sep acc (xs ++ sep :: ys) =
        String.mk (acc.reverse ++ xs) :: splitCharAux sep [] ys := by
  intro xs
  induction xs with
  | nil => intro acc _; simp [splitCharAux]
  | cons x xs ih =>
      intro acc h
      have hx : ¬ x = sep := by
        intro heq
        exact h (heq ▸ List.mem_cons_self x xs)
      have hxs : sep ∉ xs := fun hm => h (List.mem_cons_of_mem x hm)
      simp only [List.cons_append, splitCharAux, List.append_eq]
      rw [if_neg hx, ih (x :: acc) hxs]
      simp [List.reverse_cons, List.append_assoc]

/-! Claim theorems. -/

/-- C1: for every checkpoint lookup whose remote response is not a 404
not-found response, `getLatestPositionTime` returns the fixed fallback
sentinel `new Date(2010, 1, 1)` — a timestamp in year 2010 — without
inspecting the page; only on the 404 path does it read the `datetime`
attribute of the second `time` element of the page and interpret it as
UTC. -/
theorem checkpoint_sentinel_on_non_404 (resp : HttpResponse) :
    (resp.statusCode ≠ some 404 →
      getLatestPositionTime (.ok resp) = some (JsDate.localYMD 2010 1 1) ∧
      jsDateYear (JsDate.localYMD 2010 1 1) = some 2010) ∧
    (resp.statusCode = some 404 →
      getLatestPositionTime (.ok resp) =
        some (.fromString
          (templStr (xmlAttr ((timeElems resp.page).get? 1) "datetime") ++ " UTC"))) := by
  constructor
  · intro h
    exact ⟨by simp [getLatestPositionTime, h], rfl⟩
  · intro h
    simp [getLatestPositionTime, h]

/-- Witness for C1 at a concrete missing status code and a concrete 404
response with two `time` elements. -/
theorem checkpoint_sentinel_on_non_404_witness :
    getLatestPositionTime (.ok ⟨none, pageW⟩) = some (JsDate.localYMD 2010 1 1) ∧
    getLatestPositionTime (.ok ⟨some 404, pageW⟩) =
      some (.fromString "2024-03-01 10:00 UTC") := by
  refine ⟨((checkpoint_sentinel_on_non_404 ⟨none, pageW⟩).1 (by simp)).1, ?_⟩
  have h := (checkpoint_sentinel_on_non_404 ⟨some 404, pageW⟩).2 rfl
  exact h.trans rfl

/-- C5: a route document whose structural path
`document → folder → placemark` is absent at any level yields the empty
sequence, not an error. -/
theorem absent_structural_path_yields_empty (kml : Xml)
    (h : xmlToJs kml = .undefined ∨ (xmlToJs kml).get "document" = .undefined ∨
         ((xmlToJs kml).get "document").get "folder" = .undefined ∨
         placemarkVal (xmlToJs kml) = .undefined) :
    parseKmlToPlacemarks kml = .ok [] := by
  unfold parseKmlToPlacemarks extractPlacemarks
  rcases h with h | h | h | h
  · simp [h, truthy, get_undefined]
  · simp [h, truthy, get_undefined]
  · simp [h, truthy, get_undefined]
  · simp [h, truthy, get_undefined]

/-- Witness for C5 at a document with no `document` child at all. -/
theorem absent_structural_path_yields_empty_witness :
    parseKmlToPlacemarks (.elem "kml" [] []) = .ok [] :=
  absent_structural_path_yields_empty _ (Or.inr (Or.inl rfl))

/-- C7: the course formatting takes only the part before the first
decimal point (truncation, not rounding) and zero-pads it to three
characters; in particular `7.5` becomes `007` and `123.9` becomes
`123`. -/
theorem course_truncated_and_padded :
    (∀ i f : String, '.' ∉ i.data →
       courseFormatted (i ++ "." ++ f) = pad i 3) ∧
    courseFormatted "7.5" = "007" ∧ courseFormatted "123.9" = "123" := by
  refine ⟨?_, rfl, rfl⟩
  intro i f hno
  have hdata : (i ++ "." ++ f).data = i.data ++ '.' :: f.data := by
    simp [String.data_append]
  have h := splitCharAux_no_sep '.' f.data i.data [] hno
  simp only [courseFormatted, jsSplit, hdata, List.reverse_nil, List.nil_append] at h ⊢
  rw [h]
  rfl

/-- Witness for C7 at the concrete split `123` / `9`. -/
theorem course_truncated_and_padded_witness :
    courseFormatted ("123" ++ "." ++ "9") = pad "123" 3 ∧ courseFormatted "7.5" = "007" :=
  ⟨course_truncated_and_padded.1 "123" "9" (by simp), course_truncated_and_padded.2.1⟩

/-- C8: the velocity formatting takes the leading space-separated token
of the velocity field and multiplies it by 0.539957, so the input
`10 km/h` yields exactly 5.39957 knots (JavaScript float arithmetic is
modelled exactly over the rationals). -/
theorem velocity_km_h_to_knots :
    velocityKnots "10 km/h" = some (5.39957 : ℚ) ∧
    kmPerHrToKnots 10 = (539957 / 100000 : ℚ) := by
  have h1 : velocityKnots "10 km/h" =
      some (kmPerHrToKnots ((1 : ℚ) * ((10 : ℕ) : ℚ))) := rfl
  rw [h1]
  constructor
  · norm_num [kmPerHrToKnots]
  · norm_num [kmPerHrToKnots]

/-- C2 counterexample: a route document whose folder holds exactly one
qualifying, complete placemark node does not yield a one-element
sequence — the parse (configured with `explicitArray: false`) produces
the node directly instead of a one-element array, and extraction fails
with a `TypeError` from calling `.filter` on it. -/
theorem single_record_feed_cx :
    nonExtendedData (placemarkVal (xmlToJs (kmlDoc [placemarkX "1" completeEntries]))) = true ∧
    exceptIsOk (placemarkXmlToVo
      (placemarkVal (xmlToJs (kmlDoc [placemarkX "1" completeEntries])))) = true ∧
    parseKmlToPlacemarks (kmlDoc [placemarkX "1" completeEntries]) =
      .error (.typeError "placemark.filter is not a function") :=
  ⟨rfl, rfl, rfl⟩

/-- C2 (amended): the parse does not produce arrays for single children:
whenever the structural path resolves to a single placemark node (a
plain object rather than an array), extraction fails with a `TypeError`
from calling `.filter` on the non-array, instead of returning a
one-element sequence; only multi-child folders produce arrays. -/
theorem single_child_parsed_as_object (kml : Xml) (fields : List (String × JsVal))
    (h : placemarkVal (xmlToJs kml) = .obj fields) :
    parseKmlToPlacemarks kml =
      .error (.typeError "placemark.filter is not a function") := by
  have hfo : ((xmlToJs kml).get "document").get "folder" ≠ .undefined := by
    intro hu
    simp only [placemarkVal, hu, get_undefined] at h
    cases h
  have hdoc : (xmlToJs kml).get "document" ≠ .undefined := by
    intro hu
    simp only [placemarkVal, hu, get_undefined] at h
    cases h
  have t1 : truthy (xmlToJs kml) = true := truthy_of_get_ne_undef hdoc
  have t2 : truthy ((xmlToJs kml).get "document") = true := truthy_of_get_ne_undef hfo
  have t3 : truthy (((xmlToJs kml).get "document").get "folder") = true := by
    refine truthy_of_get_ne_undef (k := "placemark") ?_
    intro hu
    rw [show (((xmlToJs kml).get "document").get "folder").get "placemark"
          = placemarkVal (xmlToJs kml) from rfl, h] at hu
    cases hu
  have t4 : truthy (placemarkVal (xmlToJs kml)) = true := by rw [h]; rfl
  have t5 : truthy (JsVal.obj fields) = true := rfl
  simp only [parseKmlToPlacemarks, extractPlacemarks, t1, t2, t3, t4, t5,
    Bool.and_self, Bool.and_true, Bool.true_and, if_true, h, filterMapPlacemarks]

/-- Witness for the amended C2 at a concrete one-placemark document. -/
theorem single_child_parsed_as_object_witness :
    parseKmlToPlacemarks (kmlDoc [placemarkX "1" completeEntries2]) =
      .error (.typeError "placemark.filter is not a function") :=
  single_child_parsed_as_object _
    (jsObjFields (placemarkVal (xmlToJs (kmlDoc [placemarkX "1" completeEntries2])))) rfl

/-- C9: a placemark node that qualifies (truthy named-property container)
and has every required named property, but lacks a `visibility` child,
makes the conversion fail with an uncontrolled `TypeError` from
dereferencing the absent field — not with the named extraction error. -/
theorem missing_visibility_type_error (p : JsVal)
    (_hq : nonExtendedData p = true)
    (hprops : ∀ n ∈ requiredProps, ∃ s, getProperty p n = .ok (.str s))
    (hvis : p.get "visibility" = .undefined) :
    placemarkXmlToVo p =
      .error (.typeError "Cannot read properties of undefined (reading toLowerCase)") ∧
    isPropertyError (placemarkXmlToVo p) = false := by
  obtain ⟨s0, h0⟩ := hprops "Id" (by simp [requiredProps])
  obtain ⟨s1, h1⟩ := hprops "IMEI" (by simp [requiredProps])
  obtain ⟨s2, h2⟩ := hprops "Time UTC" (by simp [requiredProps])
  obtain ⟨s3, h3⟩ := hprops "Time" (by simp [requiredProps])
  obtain ⟨s4, h4⟩ := hprops "Latitude" (by simp [requiredProps])
  obtain ⟨s5, h5⟩ := hprops "Longitude" (by simp [requiredProps])
  obtain ⟨s6, h6⟩ := hprops "Elevation" (by simp [requiredProps])
  obtain ⟨s7, h7⟩ := hprops "Velocity" (by simp [requiredProps])
  obtain ⟨s8, h8⟩ := hprops "Course" (by simp [requiredProps])
  obtain ⟨s9, h9⟩ := hprops "Valid GPS Fix" (by simp [requiredProps])
  have hvo : placemarkXmlToVo p =
      .error (.typeError "Cannot read properties of undefined (reading toLowerCase)") := by
    simp [placemarkXmlToVo, h0, h1, h2, h3, h4, h5, h6, h7, h8, h9, hvis,
      jsToLowerCase, exbind_ok, exbind_err]
  exact ⟨hvo, by rw [hvo]; rfl⟩

/-- Witness for C9 at a concrete placemark without a `visibility`
child. -/
theorem missing_visibility_type_error_witness :
    placemarkXmlToVo (xmlToJs (.elem "Placemark" [] [.elem "ExtendedData" [] completeEntries])) =
      .error (.typeError "Cannot read properties of undefined (reading toLowerCase)") :=
  (missing_visibility_type_error
    (xmlToJs (.elem "Placemark" [] [.elem "ExtendedData" [] completeEntries])) rfl
    (by
      intro n hn
      simp only [requiredProps, List.mem_cons, List.not_mem_nil, or_false] at hn
      rcases hn with rfl | rfl | rfl | rfl | rfl | rfl | rfl | rfl | rfl | rfl <;>
        exact ⟨_, rfl⟩)
    rfl).1

/-- C10: a required named property whose entry is present in the data
list but carries an absent or empty (falsy) value is treated exactly
like a missing entry — `getProperty` raises the same named property
error in both situations. -/
theorem empty_value_treated_as_missing (p : JsVal) (ds : List JsVal) (name : String)
    (hdata : (p.get "extendeddata").get "data" = .arr ds)
    (hval : lastMatchValueFalsy ds name = true) :
    getProperty p name = .error (propError name) := by
  simp only [getProperty, hdata]
  simp only [lastMatchValueFalsy] at hval
  cases hl : (ds.filter (fun o => jsEqStr (o.get "name") name)).getLast? with
  | none => simp [hl]
  | some d =>
      rw [hl] at hval
      simp only [Bool.not_eq_true'] at hval
      simp [hl, hval]

/-- Witness for C10 at a concrete placemark whose `Velocity` entry is
present with an empty value. -/
theorem empty_value_treated_as_missing_witness :
    getProperty (xmlToJs (placemarkX "1" entriesEmptyVelocity)) "Velocity" =
      .error (propError "Velocity") :=
  empty_value_treated_as_missing _
    (jsArrElems (((xmlToJs (placemarkX "1" entriesEmptyVelocity)).get "extendeddata").get "data"))
    "Velocity" rfl rfl

/-- C4 counterexample: a route document whose folder holds a single
qualifying placemark node that lacks the required `IMEI` property does
not raise an error carrying the missing property name — the single-child
parse shape makes extraction fail earlier with an unnamed `TypeError`. -/
theorem missing_property_unnamed_error_cx :
    nonExtendedData (placemarkVal (xmlToJs (kmlDoc [placemarkX "1" entriesNoIMEI]))) = true ∧
    exceptIsOk (getProperty (placemarkVal (xmlToJs (kmlDoc [placemarkX "1" entriesNoIMEI]))) "IMEI") = false ∧
    parseKmlToPlacemarks (kmlDoc [placemarkX "1" entriesNoIMEI]) =
      .error (.typeError "placemark.filter is not a function") ∧
    isPropertyError (parseKmlToPlacemarks (kmlDoc [placemarkX "1" entriesNoIMEI])) = false :=
  ⟨rfl, rfl, rfl, rfl⟩

/-- C4 (amended): when the structural path resolves to an array of
placemark nodes and every qualifying node is structurally well-formed
(container parsed to an array of string-valued entries, `visibility`
present), a qualifying node lacking any required named property makes
the whole extraction fail with the named property error, and no record
list — not even a partial one — is returned. -/
theorem extraction_all_or_nothing (kml : Xml) (ps : List JsVal)
    (hpath : placemarkVal (xmlToJs kml) = .arr ps)
    (hwf : ∀ p ∈ ps.filter nonExtendedData, wellFormedNode p = true)
    (hmiss : ∃ p ∈ ps.filter nonExtendedData, ∃ n ∈ requiredProps,
               exceptIsOk (getProperty p n) = false) :
    (∃ n ∈ requiredProps, parseKmlToPlacemarks kml = .error (propError n)) ∧
    ∀ l, parseKmlToPlacemarks kml ≠ .ok l := by
  have hred := parse_reduces_to_mapM hpath
  obtain ⟨p, hp, n, hn, hfail⟩ := hmiss
  have hbad : exceptIsOk (placemarkXmlToVo p) = false := by
    cases hpv : placemarkXmlToVo p with
    | error e => rfl
    | ok v =>
        obtain ⟨w, hw⟩ := vo_ok_props hpv n hn
        rw [hw] at hfail
        cases hfail
  obtain ⟨m, hm, herr⟩ :=
    jsMapM_named_error (fun q hq => vo_cases (hwf q hq)) ⟨p, hp, hbad⟩
  refine ⟨⟨m, hm, by rw [hred, herr]⟩, ?_⟩
  intro l hl
  rw [hred, herr] at hl
  cases hl

/-- Witness for the amended C4 at a two-placemark document whose second
record lacks `IMEI`. -/
theorem extraction_all_or_nothing_witness :
    (∃ n ∈ requiredProps, parseKmlToPlacemarks kmlMissing = .error (propError n)) ∧
    ∀ l, parseKmlToPlacemarks kmlMissing ≠ .ok l :=
  extraction_all_or_nothing kmlMissing
    (jsArrElems (placemarkVal (xmlToJs kmlMissing))) rfl
    (by
      intro p hp
      have he : (jsArrElems (placemarkVal (xmlToJs kmlMissing))).filter nonExtendedData =
          [xmlToJs (placemarkX "1" completeEntries), xmlToJs (placemarkX "0" entriesNoIMEI)] := rfl
      rw [he] at hp
      rcases List.mem_cons.mp hp with rfl | hp2
      · rfl
      · rcases List.mem_cons.mp hp2 with rfl | hp3
        · rfl
        · cases hp3)
    ⟨xmlToJs (placemarkX "0" entriesNoIMEI),
      by
        show xmlToJs (placemarkX "0" entriesNoIMEI) ∈
          [xmlToJs (placemarkX "1" completeEntries), xmlToJs (placemarkX "0" entriesNoIMEI)]
        exact List.mem_cons_of_mem _ (List.mem_cons_self _ _),
      "IMEI", by simp [requiredProps], rfl⟩

/-- C6 counterexample: a valid route document with exactly one
qualifying, complete placemark node (N = 1) does not yield one record —
extraction fails because the single-child parse shape is not an
array. -/
theorem single_qualifying_record_cx :
    nonExtendedData (placemarkVal (xmlToJs (kmlDoc [placemarkX "0" completeEntries2]))) = true ∧
    exceptIsOk (placemarkXmlToVo
      (placemarkVal (xmlToJs (kmlDoc [placemarkX "0" completeEntries2])))) = true ∧
    exceptIsOk (parseKmlToPlacemarks (kmlDoc [placemarkX "0" completeEntries2])) = false :=
  ⟨rfl, rfl, rfl⟩

/-- C6 (amended): when the structural path resolves to an array of
placemark nodes of which N qualify, and every qualifying node converts
successfully, extraction returns exactly those N records in original
document order; and every successful orchestrator run with a non-empty
record list reports exactly the last record of the list. -/
theorem extraction_order_and_last_reported (kml : Xml) (ps : List JsVal)
    (hpath : placemarkVal (xmlToJs kml) = .arr ps)
    (hok : ∀ p ∈ ps.filter nonExtendedData, ∃ v, placemarkXmlToVo p = .ok v) :
    (∃ out, parseKmlToPlacemarks kml = .ok out ∧
       out.length = (ps.filter nonExtendedData).length ∧
       ∀ i (hi : i < (ps.filter nonExtendedData).length) (ho : i < out.length),
         placemarkXmlToVo ((ps.filter nonExtendedData).get ⟨i, hi⟩) =
           .ok (out.get ⟨i, ho⟩)) ∧
    ∀ env c t, synchronize env c = .ok t → t.placemarks ≠ [] →
      t.reported = some (t.placemarks.getLast?.getD .undefined) := by
  constructor
  · obtain ⟨out, hout, hlen, hidx⟩ := jsMapM_ok_of_all hok
    exact ⟨out, by rw [parse_reduces_to_mapM hpath, hout], hlen, hidx⟩
  · intro env c t ht hne
    obtain ⟨mmsi, _, _, _, _, hlast⟩ := synchronize_ok_shape ht
    rw [hlast hne, getD_eq_getLast t.placemarks hne]

/-- Witness for the amended C6 at a concrete two-placemark document. -/
theorem extraction_order_and_last_reported_witness :
    (∃ out, parseKmlToPlacemarks kmlTwoGood = .ok out ∧
       out.length = ((jsArrElems (placemarkVal (xmlToJs kmlTwoGood))).filter nonExtendedData).length ∧
       ∀ i (hi : i < ((jsArrElems (placemarkVal (xmlToJs kmlTwoGood))).filter nonExtendedData).length)
         (ho : i < out.length),
         placemarkXmlToVo (((jsArrElems (placemarkVal (xmlToJs kmlTwoGood))).filter nonExtendedData).get ⟨i, hi⟩) =
           .ok (out.get ⟨i, ho⟩)) ∧
    ∀ env c t, synchronize env c = .ok t → t.placemarks ≠ [] →
      t.reported = some (t.placemarks.getLast?.getD .undefined) :=
  extraction_order_and_last_reported kmlTwoGood
    (jsArrElems (placemarkVal (xmlToJs kmlTwoGood))) rfl
    (by
      intro p hp
      have he : (jsArrElems (placemarkVal (xmlToJs kmlTwoGood))).filter nonExtendedData =
          [xmlToJs (placemarkX "1" completeEntries), xmlToJs (placemarkX "1" completeEntries2)] := rfl
      rw [he] at hp
      rcases List.mem_cons.mp hp with rfl | hp2
      · exact ⟨_, rfl⟩
      · rcases List.mem_cons.mp hp2 with rfl | hp3
        · exact ⟨_, rfl⟩
        · cases hp3)

/-- C3 counterexample: with the checkpoint lookup failing (the resolver
returns no value) and everything else configured, `synchronize` does not
abort — it fetches the feed with the absent checkpoint as since-bound
and completes the run successfully. -/
theorem absent_checkpoint_run_completes_cx :
    getLatestPositionTime (collabDown.marinetrafficResponse "123456789") = none ∧
    synchronize envAll collabDown =
      .ok { checkpoint := none, fetchedSince := none, placemarks := [],
            reported := none, email := none } :=
  ⟨rfl, rfl⟩

/-- C3 (amended): an absent checkpoint is not fatal — whenever the
resolver returns no value, a (possible) successful run records the
absent checkpoint and passes it unchanged as the since-bound of the feed
fetch; no `CheckpointUnavailable` abort exists. -/
theorem absent_checkpoint_not_fatal (env : Env) (c : Collab) (t : SyncTrace) (mmsi : String)
    (hm : getMMSI env = .ok mmsi)
    (hcp : getLatestPositionTime (c.marinetrafficResponse mmsi) = none)
    (ht : synchronize env c = .ok t) :
    t.checkpoint = none ∧ t.fetchedSince = none := by
  obtain ⟨mmsi2, hm2, hchk, hfs, _, _⟩ := synchronize_ok_shape ht
  rw [hm] at hm2
  injection hm2 with hmm
  subst hmm
  exact ⟨hchk.trans hcp, hfs.trans hcp⟩

/-- Witness for the amended C3 at the concrete failing-resolver run. -/
theorem absent_checkpoint_not_fatal_witness :
    ({ checkpoint := none, fetchedSince := none, placemarks := [],
       reported := none, email := none } : SyncTrace).checkpoint = none ∧
    ({ checkpoint := none, fetchedSince := none, placemarks := [],
       reported := none, email := none } : SyncTrace).fetchedSince = none :=
  absent_checkpoint_not_fatal envAll collabDown _ "123456789" rfl rfl rfl

end SAis
